import Mathlib

/-!
Verification of the yun-commit-helper diff-to-commit-message inference engine.

The definitions below are shallow embeddings of the TypeScript sources:
`AIService` (rule-based classifier, provider gateway, response parsing) and
`GitService` (status parsing, path/message sanitization).  JavaScript strings
are modelled as `List Char` / `String`, numbers as `Nat` / `ℚ`, the network
and the host JSON parser as explicit parameters.
-/

namespace YunCommit

/-! ## Character and string helpers (JS string operations) -/

def dquoteChar : Char := Char.ofNat 34
def squoteChar : Char := Char.ofNat 39
def backquoteChar : Char := Char.ofNat 96
def dollarChar : Char := Char.ofNat 36
def lparenChar : Char := Char.ofNat 40
def rparenChar : Char := Char.ofNat 41
def lbraceChar : Char := Char.ofNat 123
def rbraceChar : Char := Char.ofNat 125
def lbrackChar : Char := Char.ofNat 91
def rbrackChar : Char := Char.ofNat 93

/-- JS whitespace as used by `trim` / `\s` (ASCII subset). -/
def isJsSpace (c : Char) : Bool := c == ' ' || c == '\t' || c == '\n' || c == '\r'

/-- Source: `String.prototype.trim`: drop whitespace at both ends. -/
def trimChars (l : List Char) : List Char :=
  ((l.dropWhile isJsSpace).reverse.dropWhile isJsSpace).reverse

def jsTrim (s : String) : String := String.mk (trimChars s.data)

/-- Source: `String.prototype.toLowerCase` character-wise. -/
def toLowerStr (s : String) : String := String.mk (s.data.map Char.toLower)

/-- Source: `String.prototype.includes` on character lists. -/
def containsSeq : List Char → List Char → Bool
  | [], pat => pat.isEmpty
  | c :: rest, pat => pat.isPrefixOf (c :: rest) || containsSeq rest pat

def strContains (s sub : String) : Bool := containsSeq s.data sub.data

def strEndsWith (s suf : String) : Bool := List.isSuffixOf suf.data s.data

/-- Source: `String.prototype.split('\n')`. -/
def splitNl (l : List Char) : List (List Char) :=
  l.foldr
    (fun c acc =>
      if c == '\n' then [] :: acc
      else
        match acc with
        | [] => [[c]]
        | a :: as => (c :: a) :: as)
    [[]]

/-- Source: `parseInt` on a run of decimal digits. -/
def digitsToNat (ds : List Char) : Nat := ds.foldl (fun n c => n * 10 + (c.toNat - 48)) 0

/-! ## Data model -/

/-- The output contract of both generation paths (`AICommitContent` in types). -/
structure AICommitContent where
  type : String
  scope : Option String
  message : String
  confidence : ℚ
deriving DecidableEq, Repr

/-- Result of `AIService.analyzeContent`: keyword flags over the lowercased text. -/
structure ContentAnalysis where
  hasNewFeature : Bool
  hasBugFix : Bool
  hasRefactor : Bool
  hasTests : Bool
  hasDocs : Bool
  hasStyles : Bool
  hasConfig : Bool
deriving DecidableEq, Repr

/-- Result of `AIService.extractChangeStats`. -/
structure ChangeStats where
  additions : Nat
  deletions : Nat
  fileCount : Nat
deriving DecidableEq, Repr

/-- The eleven Conventional Commits type keywords used throughout the sources. -/
def commitTypeKeywords : List String :=
  ["feat", "fix", "refactor", "docs", "style", "test", "chore", "perf", "ci", "build", "revert"]

/-! ## Diff Signal Extractor (`AIService.extractFilePatterns` / `extractChangeStats` /
`analyzeContent`) -/

def markerFileSp : List Char := "檔案: ".data

/-- One step of the global regex `/檔案: ([^\n]+)/g` restricted to a single line:
the first occurrence of the marker with a non-empty remainder captures the rest
of the line. -/
def lineFileCapture : List Char → Option (List Char)
  | [] => none
  | c :: rest =>
    if markerFileSp.isPrefixOf (c :: rest) then
      let cap := (c :: rest).drop markerFileSp.length
      if cap.isEmpty then lineFileCapture rest else some cap
    else lineFileCapture rest

/-- Source: `AIService.extractFilePatterns`: all `檔案: <path>` markers, marker stripped,
trimmed. -/
def extractFilePatterns (summary : String) : List String :=
  ((splitNl summary.data).filterMap lineFileCapture).map (fun cap => String.mk (trimChars cap))

/-- Global scan for `marker` immediately followed by a digit run (the regexes
`/新增: \+(\d+)/g` and `/刪除: -(\d+)/g` with the sign folded into the marker);
fuelled to mirror the non-overlapping left-to-right `g` scan. -/
def scanMarkedNums (marker : List Char) : Nat → List Char → List Nat
  | 0, _ => []
  | _, [] => []
  | fuel + 1, c :: rest =>
    if marker.isPrefixOf (c :: rest) && !marker.isEmpty then
      let after := (c :: rest).drop marker.length
      let ds := after.takeWhile Char.isDigit
      if ds.isEmpty then scanMarkedNums marker fuel rest
      else digitsToNat ds :: scanMarkedNums marker fuel (after.dropWhile Char.isDigit)
    else scanMarkedNums marker fuel rest

/-- First occurrence of `marker` immediately followed by a digit run
(the non-global regex `/變更檔案數量: (\d+)/`). -/
def firstMarkedNum (marker : List Char) : List Char → Option Nat
  | [] => none
  | c :: rest =>
    if marker.isPrefixOf (c :: rest) then
      let ds := ((c :: rest).drop marker.length).takeWhile Char.isDigit
      if ds.isEmpty then firstMarkedNum marker rest else some (digitsToNat ds)
    else firstMarkedNum marker rest

/-- Source: `AIService.extractChangeStats`. -/
def extractChangeStats (summary : String) : ChangeStats :=
  { additions := (scanMarkedNums "新增: +".data summary.data.length summary.data).foldl Nat.add 0
    deletions := (scanMarkedNums "刪除: -".data summary.data.length summary.data).foldl Nat.add 0
    fileCount := (firstMarkedNum "變更檔案數量: ".data summary.data).getD 0 }

def containsAnySub (s : String) (pats : List String) : Bool := pats.any (fun p => strContains s p)

/-- Source: `AIService.analyzeContent` (input is the lowercased summary). -/
def analyzeContent (content : String) : ContentAnalysis :=
  { hasNewFeature := containsAnySub content ["新增", "add", "create", "implement", "feature"]
    hasBugFix := containsAnySub content ["fix", "bug", "error", "修復", "錯誤", "問題"]
    hasRefactor := containsAnySub content ["refactor", "重構", "reorganize", "restructure"]
    hasTests := containsAnySub content ["test", "spec", "測試"]
    hasDocs := containsAnySub content ["readme", "doc", "文檔", "說明"]
    hasStyles := containsAnySub content ["style", "format", "css", "scss", "格式"]
    hasConfig := containsAnySub content ["config", "setting", "package.json", ".json", "設定"] }

/-! ## Heuristic Classifier (`AIService.determineCommitType` and friends) -/

/-- Source: `/\.(test|spec)\.(js|ts|jsx|tsx)$/.test(f) || f.includes('/test/') || f.includes('/tests/')` -/
def hasTestFilePath (f : String) : Bool :=
  ([".test.js", ".test.ts", ".test.jsx", ".test.tsx",
    ".spec.js", ".spec.ts", ".spec.jsx", ".spec.tsx"].any (fun suf => strEndsWith f suf))
  || strContains f "/test/" || strContains f "/tests/"

/-- Source: `/\.(md|txt|rst)$/i.test(f) || f.toLowerCase().includes('readme')` -/
def hasDocFilePath (f : String) : Bool :=
  ([".md", ".txt", ".rst"].any (fun suf => strEndsWith (toLowerStr f) suf))
  || strContains (toLowerStr f) "readme"

/-- Source: `/\.(json|yml|yaml|toml|ini)$/.test(f) || f.includes('config')` -/
def hasConfigFilePath (f : String) : Bool :=
  ([".json", ".yml", ".yaml", ".toml", ".ini"].any (fun suf => strEndsWith f suf))
  || strContains f "config"

/-- Source: `/\.(css|scss|sass|less|stylus)$/.test(f)` -/
def hasStyleFilePath (f : String) : Bool :=
  [".css", ".scss", ".sass", ".less", ".stylus"].any (fun suf => strEndsWith f suf)

/-- Source: `AIService.determineCommitType`: the ordered if/else chain. -/
def determineCommitType (filePatterns : List String) (ca : ContentAnalysis)
    (cs : ChangeStats) : String × ℚ :=
  let hasTestFiles := filePatterns.any hasTestFilePath
  let hasDocFiles := filePatterns.any hasDocFilePath
  let hasConfigFiles := filePatterns.any hasConfigFilePath
  let hasStyleFiles := filePatterns.any hasStyleFilePath
  let hasNewFiles : Bool := decide (cs.deletions * 2 < cs.additions)
  let hasOnlyDeletions : Bool := (cs.additions == 0) && decide (0 < cs.deletions)
  if hasTestFiles && ca.hasTests then ("test", 0.9)
  else if hasDocFiles && ca.hasDocs then ("docs", 0.9)
  else if ca.hasBugFix then ("fix", 0.85)
  else if hasNewFiles && ca.hasNewFeature then ("feat", 0.85)
  else if ca.hasRefactor then ("refactor", 0.8)
  else if hasStyleFiles && ca.hasStyles then ("style", 0.8)
  else if hasConfigFiles || ca.hasConfig then
    (if filePatterns.any (fun f => strContains f "package.json") then ("build", 0.8)
     else ("chore", 0.75))
  else if hasOnlyDeletions then ("refactor", 0.7)
  else if hasNewFiles then ("feat", 0.7)
  else if cs.fileCount == 1 then ("fix", 0.65)
  else ("chore", 0.6)

/-- Source: `f.split('/')[0]` -/
def firstSegment (f : String) : String := String.mk (f.data.takeWhile (fun c => c != '/'))

def dedupAux (seen : List String) : List String → List String
  | [] => []
  | x :: xs => if seen.contains x then dedupAux seen xs else x :: dedupAux (x :: seen) xs

/-- Source: `[...new Set(dirs)]`: deduplicate keeping first occurrences. -/
def dedupKeepFirst (l : List String) : List String := dedupAux [] l

def commonScopes : List String := ["components", "services", "utils", "api", "auth", "ui", "core"]

/-- Source: `AIService.extractScope`. -/
def extractScope (filePatterns : List String) : String :=
  if filePatterns.isEmpty then ""
  else
    let dirs := (filePatterns.map firstSegment).filter
      (fun d => d != "src" && d != "." && d.length != 0)
    let uniqueDirs := dedupKeepFirst dirs
    if uniqueDirs.length == 1 then uniqueDirs.headD ""
    else
      match uniqueDirs.find? (fun dir => commonScopes.contains (toLowerStr dir)) with
      | some d => d
      | none => ""

/-- Source: `f.split('.').pop()?.toLowerCase()` -/
def extOf (f : String) : String :=
  toLowerStr (String.mk ((f.data.reverse.takeWhile (fun c => c != '.')).reverse))

/-- One file's label in `AIService.getPrimaryFileType`. -/
def fileTypeLabel (f : String) : String :=
  let ext := extOf f
  let path := toLowerStr f
  if ext == "tsx" || ext == "jsx" || strContains path "component" then "組件"
  else if ext == "ts" || ext == "js" then "JS"
  else if ext == "css" || ext == "scss" || ext == "sass" then "樣式"
  else if ext == "md" then "文檔"
  else if ext == "json" || ext == "yml" || ext == "yaml" then "配置"
  else if strContains path "test" || strContains path "spec" then "測試"
  else if strContains path "api" || strContains path "service" then "API"
  else ""

/-- Source: `AIService.getPrimaryFileType`: most common label, earliest wins ties
(stable descending sort over insertion-ordered entries). -/
def getPrimaryFileType (filePatterns : List String) : String :=
  if filePatterns.isEmpty then ""
  else
    let types := (filePatterns.map fileTypeLabel).filter (fun t => t != "")
    match dedupKeepFirst types with
    | [] => ""
    | e :: es => es.foldl (fun best t => if types.count best < types.count t then t else best) e

/-- Source: `AIService.generateMessage`. -/
def generateMessage (type : String) (filePatterns : List String) (cs : ChangeStats)
    (ca : ContentAnalysis) : String :=
  let hasMultipleFiles : Bool := decide (1 < cs.fileCount)
  let primaryFileType := getPrimaryFileType filePatterns
  if type == "feat" then
    if ca.hasNewFeature then (if hasMultipleFiles then "新增功能模組" else "新增功能")
    else if primaryFileType != "" then "新增" ++ primaryFileType ++ "功能"
    else "新增功能"
  else if type == "fix" then
    if ca.hasBugFix then (if hasMultipleFiles then "修復多個問題" else "修復問題")
    else if primaryFileType != "" then "修復" ++ primaryFileType ++ "問題"
    else "修復問題"
  else if type == "docs" then (if hasMultipleFiles then "更新文檔" else "更新說明文檔")
  else if type == "test" then (if hasMultipleFiles then "更新測試用例" else "新增測試")
  else if type == "refactor" then
    (if primaryFileType != "" then "重構" ++ primaryFileType ++ "代碼" else "重構代碼")
  else if type == "style" then "調整代碼格式"
  else if type == "build" then
    (if filePatterns.any (fun f => strContains f "package.json") then "更新依賴配置"
     else "更新建置配置")
  else
    if primaryFileType != "" then "更新" ++ primaryFileType
    else if hasMultipleFiles then "更新多個檔案"
    else "更新代碼"

/-- Source: `AIService.generateWithEnhancedRules`: the rule-based generation path. -/
def generateWithEnhancedRules (diffSummary : String) : AICommitContent :=
  let lower := toLowerStr diffSummary
  let filePatterns := extractFilePatterns diffSummary
  let changeStats := extractChangeStats diffSummary
  let contentAnalysis := analyzeContent lower
  let ta := determineCommitType filePatterns contentAnalysis changeStats
  let scope := extractScope filePatterns
  { type := ta.1
    scope := if scope = "" then none else some scope
    message := generateMessage ta.1 filePatterns changeStats contentAnalysis
    confidence := min ta.2 0.9 }

/-! ## Provider Gateway: configuration, network model, constants -/

/-- Source: `CONSTANTS.AI` size limits. -/
def MAX_DIFF_LENGTH : Nat := 8000
def GEMINI_MAX_DIFF_LENGTH : Nat := 3000
def GEMINI_SUMMARY_LENGTH : Nat := 800

/-- Source: `CONSTANTS.MESSAGES.ERRORS.NO_STAGED_FILES`. -/
def NO_STAGED_FILES : String := "沒有已暫存的檔案可供分析"

def PROMPT_USER : String := "請分析以下 Git diff 並生成 commit 訊息：\n\n"

/-- Source: `CONSTANTS.AI.PROMPT.SYSTEM`. -/
def PROMPT_SYSTEM : String :=
  "你是一個專業的 Git commit 訊息生成助手。請根據提供的程式碼變更，生成符合 Conventional Commits 規範的 commit 訊息。\n\n撰寫規則：\n1. 使用繁體中文描述\n2. 格式：type(scope): description\n3. type 必須是：feat, fix, refactor, docs, style, test, chore, perf, ci, build, revert 之一\n4. description 要**詳細但精準**，說明「做了什麼」和「影響範圍」\n5. **多檔案處理**：當涉及多個檔案時，整合描述共同目標，不要逐一列舉檔案\n6. **適當長度**：描述應為 15-50 字，避免過短（<10字）或冗長（>60字）\n7. scope 選擇：單一模組用具體名稱，跨模組變更可省略或用通用詞\n\n描述品質標準：\n✅ 好的描述：「新增用戶身份驗證功能並集成 JWT token 管理」\n✅ 好的描述：「重構資料庫連接層以提升性能和錯誤處理」\n✅ 好的描述：「修復檔案上傳時的記憶體洩漏和進度追蹤問題」\n❌ 避免過短：「修復 bug」、「更新檔案」\n❌ 避免過長：「修復了在特定情況下當用戶嘗試上傳大檔案時可能出現的記憶體洩漏問題並改善了進度條顯示邏輯」\n\n請返回 JSON 格式：\n\x7b\n  \"type\": \"feat|fix|refactor|docs|style|test|chore|perf|ci|build|revert\",\n  \"scope\": \"模組名稱或省略\",\n  \"message\": \"詳細且精準的變更描述（15-50字）\",\n  \"confidence\": 0.0-1.0\n\x7d"

inductive Provider
  | openai
  | anthropic
  | gemini
  | localAI
  | rules
deriving DecidableEq, Repr

/-- Source: `AIConfig` from the AI service. -/
structure AIConfig where
  provider : Provider
  apiKey : Option String := none
  model : Option String := none
  endpoint : Option String := none

/-- JS truthiness of an optional string (`undefined` and `''` are falsy). -/
def truthy (o : Option String) : Bool := !(o.getD "" == "")

/-- Source: `a || b || ...` over optional strings: the first truthy value, else `''`. -/
def firstTruthy : List (Option String) → String
  | [] => ""
  | o :: rest => if truthy o then o.getD "" else firstTruthy rest

/-- A network request issued by the gateway, with the varying payload text. -/
inductive Request
  | openaiChat (userContent : String)
  | anthropicMsg (userContent : String)
  | geminiListModels
  | geminiGenerate (prompt : String)
  | localTags
  | localGenerate (prompt : String)
deriving DecidableEq, Repr

/-- Source: `OpenAIResponse` reduced to the field the code reads
(`choices[0]?.message?.content`). -/
structure OpenAIResponseM where
  content : Option String
deriving DecidableEq, Repr

/-- Source: `AnthropicResponse` reduced to `content[0]?.text`. -/
structure AnthropicResponseM where
  content : Option String
deriving DecidableEq, Repr

/-- A Gemini candidate, with the fields the code probes for text. -/
structure GeminiCandidateM where
  finishReason : Option String
  partText : Option String
  output : Option String
  text : Option String
deriving DecidableEq, Repr

/-- Source: `GeminiResponse` reduced to the fields the code reads. -/
structure GeminiResponseM where
  candidates : Option (List GeminiCandidateM)
  text : Option String
deriving DecidableEq, Repr

/-- Source: `LocalAIResponse`. -/
structure LocalAIResponseM where
  response : Option String
  text : Option String
  content : Option String
deriving DecidableEq, Repr

/-- Outcome of one `fetch`: a thrown network error / timeout, a non-2xx
response, or a parsed success body. -/
inductive FetchResult (α : Type)
  | netErr
  | httpErr (status : Nat) (statusText : String)
  | success (body : α)
deriving DecidableEq, Repr

/-- The JSON object fields `parseAIResponse` reads off `JSON.parse`'s result. -/
structure ParsedJson where
  type : Option String
  scope : Option String
  message : Option String
  confidence : Option ℚ
deriving DecidableEq, Repr

/-- The external world for one `generateCommitContent` call: each endpoint's
outcome and the host `JSON.parse`. -/
structure Network where
  openaiResult : FetchResult OpenAIResponseM
  anthropicResult : FetchResult AnthropicResponseM
  geminiModelsOk : Bool
  geminiResult : FetchResult GeminiResponseM
  localTagsOk : Bool
  localResult : FetchResult LocalAIResponseM
  jsonParse : List Char → Option ParsedJson

/-! ## Response parsing (`AIService.parseAIResponse`) -/

/-- Source: `response.match(/\{[\s\S]*\}/)`: from the first opening brace to the last
closing brace, when the first strictly precedes the last. -/
def extractJsonBlock (l : List Char) : Option (List Char) :=
  match l.findIdx? (fun c => c == lbraceChar), l.reverse.findIdx? (fun c => c == rbraceChar) with
  | some i, some jr =>
    let j := l.length - 1 - jr
    if i < j then some ((l.drop i).take (j - i + 1)) else none
  | _, _ => none

def isQuoteClass (c : Char) : Bool := c == dquoteChar || c == squoteChar || c == backquoteChar

/-- Source: `message.replace(/^["'`]+|["'`]+$/g, '')` (the quote-character class of the
source): strip leading and trailing quote runs. -/
def stripQuoteRuns (l : List Char) : List Char :=
  ((l.dropWhile isQuoteClass).reverse.dropWhile isQuoteClass).reverse

/-- Source: `jsOr o d` is `o || d` for string fields. -/
def jsOr (o : Option String) (dflt : String) : String := if truthy o then o.getD "" else dflt

/-- Source: `o || undefined` for the scope field. -/
def jsOrOpt (o : Option String) : Option String := if truthy o then o else none

/-- Source: `o || d` for the numeric confidence field (`0` is falsy). -/
def jsOrQ (o : Option ℚ) (dflt : ℚ) : ℚ :=
  match o with
  | some q => if q == 0 then dflt else q
  | none => dflt

/-- The `(\([^)]+\))?: (.+)` tail of the conventional-commit regex after an
optional scope group: literal colon-space, then a non-empty run up to the line
end. -/
def convAfterScope (w : String) (sc : List Char) (r : List Char) :
    Option (String × List Char × List Char) :=
  match r with
  | c1 :: c2 :: r5 =>
    if c1 == ':' && c2 == ' ' then
      let msg := r5.takeWhile (fun c => c != '\n')
      if msg.isEmpty then none else some (w, sc, msg)
    else none
  | _ => none

/-- Try one type keyword of `/^(feat|...)(\([^)]+\))?: (.+)/` at the start of
the response. -/
def tryCommitWord (w : String) (l : List Char) : Option (String × List Char × List Char) :=
  if w.data.isPrefixOf l then
    let rest := l.drop w.data.length
    let withScope :=
      match rest with
      | c :: r2 =>
        if c == lparenChar then
          let sc := r2.takeWhile (fun x => x != rparenChar)
          let r3 := r2.dropWhile (fun x => x != rparenChar)
          if sc.isEmpty then none
          else
            match r3 with
            | _ :: r4 => convAfterScope w sc r4
            | [] => none
        else none
      | [] => none
    match withScope with
    | some res => some res
    | none => convAfterScope w [] rest
  else none

/-- The anchored conventional-commit pattern: alternatives tried in source
order. -/
def matchConventional (l : List Char) : Option (String × List Char × List Char) :=
  commitTypeKeywords.findSome? (fun w => tryCommitWord w l)

/-- The plain-text fallback half of `parseAIResponse`. -/
def parseFallback (response : String) : AICommitContent :=
  let firstLine := (splitNl response.data).headD []
  let msg0 := if firstLine.isEmpty then "更新代碼".data else firstLine
  match matchConventional response.data with
  | some (t, sc, m) =>
    { type := t
      scope := if sc.isEmpty then none else some (String.mk sc)
      message := String.mk (trimChars (stripQuoteRuns m))
      confidence := 0.7 }
  | none =>
    { type := "chore"
      scope := none
      message := String.mk (trimChars (stripQuoteRuns msg0))
      confidence := 0.7 }

/-- Source: `AIService.parseAIResponse`, with the host `JSON.parse` passed explicitly
(`none` models a parse exception). -/
def parseAIResponse (jsonParse : List Char → Option ParsedJson) (response : String) :
    AICommitContent :=
  match extractJsonBlock response.data with
  | some jl =>
    match jsonParse jl with
    | some p =>
      { type := jsOr p.type "chore"
        scope := jsOrOpt p.scope
        message := jsOr p.message "更新代碼"
        confidence := jsOrQ p.confidence 0.8 }
    | none => parseFallback response
  | none => parseFallback response

/-! ## Gemini condensation (`AIService.truncateDiffForGemini`) -/

def isQuoteCh (c : Char) : Bool := c == squoteChar || c == dquoteChar

/-- Source: `['"]([^'"]+)['"]` and, when `needParen`, a following `)`. -/
def tryQuotedCapture (needParen : Bool) : List Char → Option (List Char)
  | [] => none
  | q :: rest =>
    if isQuoteCh q then
      let cap := rest.takeWhile (fun c => !(isQuoteCh c))
      let r2 := rest.dropWhile (fun c => !(isQuoteCh c))
      if cap.isEmpty then none
      else
        match r2 with
        | _ :: r3 =>
          if needParen then
            match r3 with
            | c :: _ => if c == rparenChar then some cap else none
            | [] => none
          else some cap
        | [] => none
    else none

/-- Source: `line.match(/require\(['"]([^'"]+)['"]\)|from ['"]([^'"]+)['"]/)`:
left-to-right scan, alternative 1 before alternative 2 at each position. -/
def matchModuleName : List Char → Option (List Char)
  | [] => none
  | c :: rest =>
    match (if "require(".data.isPrefixOf (c :: rest)
           then tryQuotedCapture true ((c :: rest).drop 8) else none) with
    | some cap => some cap
    | none =>
      match (if "from ".data.isPrefixOf (c :: rest)
             then tryQuotedCapture false ((c :: rest).drop 5) else none) with
      | some cap => some cap
      | none => matchModuleName rest

def isWordChar (c : Char) : Bool := c.isAlphanum || c == '_'

/-- Source: `clean.match(/function\s+(\w+)/)`. -/
def matchFunctionName : List Char → Option (List Char)
  | [] => none
  | c :: rest =>
    if "function".data.isPrefixOf (c :: rest) then
      let r1 := (c :: rest).drop 8
      let ws := r1.takeWhile isJsSpace
      let w := (r1.dropWhile isJsSpace).takeWhile isWordChar
      if ws.isEmpty || w.isEmpty then matchFunctionName rest else some w
    else matchFunctionName rest

/-- Source: `clean.match(/const\s+(\w+)\s*=/)`. -/
def matchConstName : List Char → Option (List Char)
  | [] => none
  | c :: rest =>
    if "const".data.isPrefixOf (c :: rest) then
      let r1 := (c :: rest).drop 5
      let ws := r1.takeWhile isJsSpace
      let r2 := r1.dropWhile isJsSpace
      let w := r2.takeWhile isWordChar
      let r4 := (r2.drop w.length).dropWhile isJsSpace
      if ws.isEmpty || w.isEmpty then matchConstName rest
      else
        match r4 with
        | e :: _ => if e == '=' then some w else matchConstName rest
        | [] => matchConstName rest
    else matchConstName rest

/-- Source: `line.replace(/^[+-]\s*/, '')`. -/
def stripDiffMark : List Char → List Char
  | [] => []
  | c :: rest => if c == '+' || c == '-' then rest.dropWhile isJsSpace else c :: rest

/-- Source: `Array.prototype.join(sep)`. -/
def joinSep (sep : List Char) : List (List Char) → List Char
  | [] => []
  | [x] => x
  | x :: y :: rest => x ++ sep ++ joinSep sep (y :: rest)

/-- The file/stat interleaving loop (`i < min(fileLines.length, 3)`, stats in
lockstep while available); call with `fileLines.take 3`. -/
def interleaveStats : List (List Char) → List (List Char) → List Char
  | [], _ => []
  | f :: fs, [] => f ++ '\n' :: interleaveStats fs []
  | f :: fs, s :: ss => f ++ '\n' :: (s ++ '\n' :: interleaveStats fs ss)

/-- The per-import-line module extraction (match backed by the
strip-and-trim fallback). -/
def moduleLabel (line : List Char) : List Char :=
  match matchModuleName line with
  | some m => m
  | none => trimChars (stripDiffMark line)

/-- The per-function-line label of the condensation step. -/
def funcLabel (line : List Char) : List Char :=
  let clean := trimChars (stripDiffMark line)
  if containsSeq clean "function ".data then
    match matchFunctionName clean with
    | some w => w ++ "()".data
    | none => "新函數".data
  else if containsSeq clean "const ".data && containsSeq clean ['='] then
    match matchConstName clean with
    | some w => w ++ "()".data
    | none => "新常數".data
  else if containsSeq clean "switch".data || containsSeq clean "case".data then
    (if 50 < clean.length then clean.take 50 ++ "...".data else clean)
  else
    (if 40 < clean.length then clean.take 40 ++ "...".data else clean)

/-- First match of `/新增:\s*\+(\d+)/`-style patterns on one line. -/
def firstStatNum (marker : List Char) (sign : Char) : List Char → Option Nat
  | [] => none
  | c :: rest =>
    if marker.isPrefixOf (c :: rest) then
      match ((c :: rest).drop marker.length).dropWhile isJsSpace with
      | s :: r2 =>
        if s == sign then
          let ds := r2.takeWhile Char.isDigit
          if ds.isEmpty then firstStatNum marker sign rest else some (digitsToNat ds)
        else firstStatNum marker sign rest
      | [] => firstStatNum marker sign rest
    else firstStatNum marker sign rest

/-- The final length-bounded section accumulator (stops at the first section
that would overflow `limit`). -/
def accumSections (limit : Nat) : Nat → List (List Char) → List Char
  | _, [] => []
  | cur, s :: ss =>
    if cur + s.length + 1 ≤ limit then s ++ '\n' :: accumSections limit (cur + s.length + 1) ss
    else []

/-- Source: `AIService.truncateDiffForGemini`: the condensed-summary builder. -/
def truncateDiffForGemini (diffSummary : String) : String :=
  let maxLength := GEMINI_SUMMARY_LENGTH
  if diffSummary.length ≤ maxLength then diffSummary
  else
    let lines := splitNl diffSummary.data
    let fileLines := lines.filter (fun l => containsSeq l "檔案:".data)
    let statsLines := lines.filter
      (fun l => containsSeq l "新增:".data && containsSeq l "刪除:".data)
    let headPart := interleaveStats (fileLines.take 3) statsLines
    let importLines := lines.filter
      (fun l => containsSeq l "require(".data || containsSeq l "import ".data
        || containsSeq l "from ".data)
    let functionLines := lines.filter
      (fun l =>
        let t := trimChars l
        (t.head? == some '+' || t.head? == some '-') &&
          (containsSeq t "function ".data || containsSeq t "const ".data ||
           containsSeq t "= async".data || containsSeq t "= (".data ||
           containsSeq t "switch".data || containsSeq t "case ".data))
    let modules := ((importLines.take 5).map moduleLabel).filter (fun m => 0 < m.length)
    let importPart :=
      if importLines.isEmpty then []
      else "\n新增模組: ".data ++ joinSep ", ".data modules ++ ['\n']
    let functions := ((functionLines.take 8).map funcLabel).filter (fun f => 3 < f.length)
    let functionPart :=
      if functionLines.isEmpty then []
      else "\n主要函數變更: ".data ++ joinSep ", ".data functions ++ ['\n']
    let totalAdded := ((lines.filter (fun l => containsSeq l "新增:".data)).map
      (fun l => (firstStatNum "新增:".data '+' l).getD 0)).foldl Nat.add 0
    let totalDeleted := ((lines.filter (fun l => containsSeq l "刪除:".data)).map
      (fun l => (firstStatNum "刪除:".data '-' l).getD 0)).foldl Nat.add 0
    let scalePart :=
      if totalAdded != 0 || totalDeleted != 0 then
        "\n變更規模: +".data ++ (toString totalAdded).data ++ "/-".data ++
          (toString totalDeleted).data ++ " 行".data
      else []
    let summary := headPart ++ importPart ++ functionPart ++ scalePart
    if maxLength < summary.length then
      let sections := (splitNl summary).filter (fun l => !(trimChars l).isEmpty)
      String.mk (accumSections (maxLength - 50) 0 sections ++ "\n(智能摘要，原始 ".data ++
        (toString diffSummary.length).data ++ " 字符)".data)
    else String.mk summary

/-- Source: `AIService.createGeminiPrompt`. -/
def createGeminiPrompt (cfg : AIConfig) (diffSummary : String) : String :=
  if strContains (cfg.model.getD "") "2.5-pro" then
    diffSummary ++
      "\n\n直接回傳: \x7b\"type\":\"feat\",\"scope\":\"\",\"message\":\"中文描述\",\"confidence\":0.8\x7d"
  else
    "根據代碼變更生成 commit 訊息：\n\n" ++ diffSummary ++
      "\n\n只返回 JSON：\n\x7b\"type\":\"feat|fix|refactor|docs|style|test|chore\",\"scope\":\"\",\"message\":\"簡潔中文描述\",\"confidence\":0.8\x7d"

/-! ## Provider calls and the gateway (`AIService.generateCommitContent`) -/

abbrev GenResult := Except String AICommitContent × List Request

/-- Source: `AIService.generateWithOpenAI`. -/
def generateWithOpenAI (cfg : AIConfig) (net : Network) (diffSummary : String) : GenResult :=
  if !(truthy cfg.apiKey) then (.error "OpenAI API key not configured", [])
  else
    let reqs := [Request.openaiChat (PROMPT_USER ++ diffSummary)]
    match net.openaiResult with
    | .netErr => (.error "fetch failed", reqs)
    | .httpErr _ st => (.error ("OpenAI API error: " ++ st), reqs)
    | .success body =>
      if !(truthy body.content) then (.error "No content received from OpenAI", reqs)
      else (.ok (parseAIResponse net.jsonParse (body.content.getD "")), reqs)

/-- Source: `AIService.generateWithAnthropic`. -/
def generateWithAnthropic (cfg : AIConfig) (net : Network) (diffSummary : String) : GenResult :=
  if !(truthy cfg.apiKey) then (.error "Anthropic API key not configured", [])
  else
    let reqs := [Request.anthropicMsg (PROMPT_SYSTEM ++ "\n\n" ++ PROMPT_USER ++ diffSummary)]
    match net.anthropicResult with
    | .netErr => (.error "fetch failed", reqs)
    | .httpErr _ st => (.error ("Anthropic API error: " ++ st), reqs)
    | .success body =>
      if !(truthy body.content) then (.error "No content received from Anthropic", reqs)
      else (.ok (parseAIResponse net.jsonParse (body.content.getD "")), reqs)

/-- Source: `AIService.generateWithGemini`: condensation, key-validation pre-check,
quota / finish-reason handling. -/
def generateWithGemini (cfg : AIConfig) (net : Network) (diffSummary : String) : GenResult :=
  if !(truthy cfg.apiKey) then (.error "Google Gemini API key not configured", [])
  else
    let processedDiff :=
      if GEMINI_MAX_DIFF_LENGTH < diffSummary.length then truncateDiffForGemini diffSummary
      else diffSummary
    if GEMINI_MAX_DIFF_LENGTH < diffSummary.length &&
        GEMINI_SUMMARY_LENGTH * 3 / 2 < processedDiff.length then
      (.ok (generateWithEnhancedRules diffSummary), [])
    else if !net.geminiModelsOk then
      (.error "Cannot connect to Google Gemini. Please check your API key and internet connection.",
       [Request.geminiListModels])
    else
      let fullPrompt := createGeminiPrompt cfg processedDiff
      let reqs := [Request.geminiListModels, Request.geminiGenerate fullPrompt]
      match net.geminiResult with
      | .netErr => (.error "fetch failed", reqs)
      | .httpErr status st =>
        if status == 429 then (.ok (generateWithEnhancedRules diffSummary), reqs)
        else (.error ("Google Gemini API error: " ++ st), reqs)
      | .success body =>
        if body.candidates == some [] then
          (.error "Gemini API returned no candidates. Check your API key and quota.", reqs)
        else
          let candidate := body.candidates.bind List.head?
          let fr := candidate.bind GeminiCandidateM.finishReason
          if fr == some "MAX_TOKENS" then (.ok (generateWithEnhancedRules diffSummary), reqs)
          else if fr == some "SAFETY" then
            (.error "Gemini blocked the response due to safety concerns. Try a different input.",
             reqs)
          else if fr == some "RECITATION" then
            (.error "Gemini blocked the response due to recitation concerns.", reqs)
          else
            let content := firstTruthy
              [candidate.bind GeminiCandidateM.partText, candidate.bind GeminiCandidateM.output,
               body.text, candidate.bind GeminiCandidateM.text]
            if content == "" then (.error "No content received from Google Gemini.", reqs)
            else (.ok (parseAIResponse net.jsonParse content), reqs)

/-- Source: `AIService.generateWithLocalAI`. -/
def generateWithLocalAI (cfg : AIConfig) (net : Network) (diffSummary : String) : GenResult :=
  if !(truthy cfg.endpoint) then (.error "Local AI endpoint not configured", [])
  else if !net.localTagsOk then
    (.error ("Cannot connect to local AI service at " ++ cfg.endpoint.getD "" ++
      ". Please check if Ollama or your local AI is running."), [Request.localTags])
  else
    let reqs := [Request.localTags,
      Request.localGenerate (PROMPT_SYSTEM ++ "\n\n" ++ PROMPT_USER ++ diffSummary)]
    match net.localResult with
    | .netErr => (.error "fetch failed", reqs)
    | .httpErr _ st => (.error ("Local AI error: " ++ st), reqs)
    | .success body =>
      let content := firstTruthy [body.response, body.text, body.content]
      if content == "" then (.error "No content received from local AI", reqs)
      else (.ok (parseAIResponse net.jsonParse content), reqs)

/-- Source: `AIService.isLargeDiffForProvider`. -/
def isLargeDiffForProvider (cfg : AIConfig) (diffSummary : String) : Bool :=
  match cfg.provider with
  | .gemini => decide (GEMINI_MAX_DIFF_LENGTH < diffSummary.length)
  | .openai => decide (MAX_DIFF_LENGTH < diffSummary.length)
  | .anthropic => decide (MAX_DIFF_LENGTH < diffSummary.length)
  | .localAI => decide (MAX_DIFF_LENGTH * 3 / 2 < diffSummary.length)
  | .rules => false

/-- The provider `switch` inside the `try` block. -/
def dispatchProvider (cfg : AIConfig) (net : Network) (diffSummary : String) : GenResult :=
  match cfg.provider with
  | .openai => generateWithOpenAI cfg net diffSummary
  | .anthropic => generateWithAnthropic cfg net diffSummary
  | .gemini => generateWithGemini cfg net diffSummary
  | .localAI => generateWithLocalAI cfg net diffSummary
  | .rules => (.ok (generateWithEnhancedRules diffSummary), [])

/-- The surrounding `catch`: any thrown provider error is replaced by the
rule-based result (the already-issued requests stand). -/
def withRulesFallback (diffSummary : String) : GenResult → GenResult
  | (.error _, reqs) => (.ok (generateWithEnhancedRules diffSummary), reqs)
  | (.ok c, reqs) => (.ok c, reqs)

/-- Source: `AIService.generateCommitContent`: the Provider Gateway entry point. -/
def generateCommitContent (cfg : AIConfig) (net : Network) (diffSummary : String) : GenResult :=
  if jsTrim diffSummary == "" then (.error NO_STAGED_FILES, [])
  else if isLargeDiffForProvider cfg diffSummary && !(cfg.provider == Provider.gemini) then
    (.ok (generateWithEnhancedRules diffSummary), [])
  else withRulesFallback diffSummary (dispatchProvider cfg net diffSummary)

/-! ## GitService: sanitization -/

/-- The character class of `/[;&|`$(){}[\]]/g`. -/
def isShellMeta (c : Char) : Bool :=
  c == ';' || c == '&' || c == '|' || c == backquoteChar || c == dollarChar ||
  c == lparenChar || c == rparenChar || c == lbraceChar || c == rbraceChar ||
  c == lbrackChar || c == rbrackChar

/-- Source: `.replace(/\.\.\//g, '')`: one left-to-right non-overlapping pass. -/
def removeDotDotSlash : List Char → List Char
  | '.' :: '.' :: '/' :: rest => removeDotDotSlash rest
  | c :: rest => c :: removeDotDotSlash rest
  | [] => []

/-- Source: `GitService.sanitizeFilePath`. -/
def sanitizeFilePath (filePath : String) : String :=
  String.mk (trimChars (removeDotDotSlash (filePath.data.filter (fun c => !(isShellMeta c)))))

/-- Source: `.replace(/"/g, '\\"')`. -/
def escapeQuotes : List Char → List Char
  | [] => []
  | c :: rest =>
    if c == dquoteChar then '\\' :: dquoteChar :: escapeQuotes rest
    else c :: escapeQuotes rest

def isEscTarget (c : Char) : Bool := c == backquoteChar || c == dollarChar || c == '\\'

/-- Source: `.replace(/[`$\\]/g, '\\$&')`: one pass over the input, a backslash
inserted before each matching character. -/
def escapeSpecials : List Char → List Char
  | [] => []
  | c :: rest =>
    if isEscTarget c then '\\' :: c :: escapeSpecials rest
    else c :: escapeSpecials rest

/-- Source: `GitService.sanitizeCommitMessage`. -/
def sanitizeCommitMessage (message : String) : String :=
  String.mk (trimChars (escapeSpecials (escapeQuotes message.data)))

/-! ## GitService: status parsing (`GitService.getFileStatus`) -/

/-- Source: `GitFileStatus` from types. -/
structure GitFileStatus where
  path : String
  status : String
  description : String
  staged : Bool
deriving DecidableEq, Repr

/-- Source: `GitService.getStatusInfo`: the status-code switch with its default. -/
def getStatusInfo (c : Char) : String × String :=
  if c == 'M' then ("M", "Modified")
  else if c == 'A' then ("A", "Added")
  else if c == 'D' then ("D", "Deleted")
  else if c == 'R' then ("R", "Renamed")
  else if c == 'C' then ("C", "Copied")
  else ("C", "Changed")

/-- Source: `.replace(/\\"/g, '"')`. -/
def unescapeQuoteSeq : List Char → List Char
  | [] => []
  | [c] => [c]
  | c1 :: c2 :: rest =>
    if c1 == '\\' && c2 == dquoteChar then dquoteChar :: unescapeQuoteSeq rest
    else c1 :: unescapeQuoteSeq (c2 :: rest)

/-- Source: `.replace(/\\\\/g, '\\')`. -/
def unescapeBackslashSeq : List Char → List Char
  | [] => []
  | [c] => [c]
  | c1 :: c2 :: rest =>
    if c1 == '\\' && c2 == '\\' then '\\' :: unescapeBackslashSeq rest
    else c1 :: unescapeBackslashSeq (c2 :: rest)

/-- Source: `line.substring(3).trim()` plus the quoted-path handling. -/
def parseStatusPath (l : List Char) : List Char :=
  let p := trimChars l
  if p.head? == some dquoteChar && p.getLast? == some dquoteChar then
    unescapeBackslashSeq (unescapeQuoteSeq ((p.drop 1).dropLast))
  else p

/-- The JS `Map<string, GitFileStatus>` as an insertion-ordered association
list; `set` replaces in place or appends. -/
abbrev FileMap := List (List Char × GitFileStatus)

def mapSet (m : FileMap) (k : List Char) (v : GitFileStatus) : FileMap :=
  if m.any (fun p => p.1 == k) then m.map (fun p => if p.1 == k then (k, v) else p)
  else m ++ [(k, v)]

def sufStaged : List Char := "_staged".data
def sufUnstaged : List Char := "_unstaged".data
def sufUntracked : List Char := "_untracked".data

/-- The per-line body of `getFileStatus`'s `forEach` (lines shorter than 3
characters are skipped). -/
def processStatusLine (m : FileMap) (line : List Char) : FileMap :=
  match line with
  | i :: w :: _ :: rest =>
    let path := parseStatusPath rest
    let m1 :=
      if !(i == ' ') && !(i == '?') then
        let si := getStatusInfo i
        mapSet m (path ++ sufStaged)
          { path := String.mk path, status := si.1, description := si.2, staged := true }
      else m
    let m2 :=
      if !(w == ' ') && !(i == '?') && !(w == '?') then
        let si := getStatusInfo w
        mapSet m1 (path ++ sufUnstaged)
          { path := String.mk path, status := si.1, description := si.2, staged := false }
      else m1
    if i == '?' && w == '?' then
      mapSet m2 (path ++ sufUntracked)
        { path := String.mk path, status := "?", description := "Untracked", staged := false }
    else m2
  | _ => m

/-- Source: `GitService.getFileStatus` on the captured `git status --porcelain`
output. -/
def getFileStatus (stdout : String) : List GitFileStatus :=
  let lines := (splitNl stdout.data).filter (fun l => !l.isEmpty)
  (lines.foldl processStatusLine []).map Prod.snd

/-- The three key categories of the file map. -/
inductive FileCat
  | staged
  | unstaged
  | untracked
deriving DecidableEq, Repr

/-- The category an entry belongs to, read off the entry itself. -/
def catOf (e : GitFileStatus) : FileCat :=
  if e.staged then .staged else if e.status == "?" then .untracked else .unstaged

def catSuffix : FileCat → List Char
  | .staged => sufStaged
  | .unstaged => sufUnstaged
  | .untracked => sufUntracked

/-! ## Claim-support definitions -/

/-- The precedence listing of the specification (first match wins), stated
independently of `determineCommitType`; rule 9 is written with the
specification's "without the feature flag" side condition. -/
def claimedCommitTypePrecedence (filePatterns : List String) (ca : ContentAnalysis)
    (cs : ChangeStats) : String × ℚ :=
  if filePatterns.any hasTestFilePath && ca.hasTests then ("test", 0.9)
  else if filePatterns.any hasDocFilePath && ca.hasDocs then ("docs", 0.9)
  else if ca.hasBugFix then ("fix", 0.85)
  else if decide (cs.deletions * 2 < cs.additions) && ca.hasNewFeature then ("feat", 0.85)
  else if ca.hasRefactor then ("refactor", 0.8)
  else if filePatterns.any hasStyleFilePath && ca.hasStyles then ("style", 0.8)
  else if filePatterns.any hasConfigFilePath || ca.hasConfig then
    (if filePatterns.any (fun f => strContains f "package.json") then ("build", 0.8)
     else ("chore", 0.75))
  else if (cs.additions == 0) && decide (0 < cs.deletions) then ("refactor", 0.7)
  else if decide (cs.deletions * 2 < cs.additions) && !ca.hasNewFeature then ("feat", 0.7)
  else if cs.fileCount == 1 then ("fix", 0.65)
  else ("chore", 0.6)

/-- Checker: every double quote, backtick and dollar sign in the list is
immediately preceded by a backslash character. -/
def escapedOk : Option Char → List Char → Bool
  | _, [] => true
  | prev, c :: rest =>
    (if c == dquoteChar || c == backquoteChar || c == dollarChar then prev == some '\\'
     else true) && escapedOk (some c) rest

/-- Checker: every double quote in the list is immediately preceded by a
backslash character. -/
def quoteOk : Option Char → List Char → Bool
  | _, [] => true
  | prev, c :: rest =>
    (if c == dquoteChar then prev == some '\\' else true) && quoteOk (some c) rest

/-- The map key of a file-status entry, reconstructed from the entry. -/
def keyFor (e : GitFileStatus) : List Char := e.path.data ++ catSuffix (catOf e)

/-- Invariant of the status file map: keys are pairwise distinct and each key
is determined by its entry's path and category. -/
def goodMap (m : FileMap) : Prop :=
  m.Pairwise (fun a b => a.1 ≠ b.1) ∧ ∀ kv ∈ m, kv.1 = keyFor kv.2

/-- A rules-only configuration. -/
def cfgRules : AIConfig := ⟨Provider.rules, none, none, none⟩

/-- An OpenAI configuration with a key. -/
def cfgOpenai : AIConfig := ⟨Provider.openai, some "key", none, none⟩

/-- A Gemini configuration with a key. -/
def cfgGemini : AIConfig := ⟨Provider.gemini, some "key", none, none⟩

/-- A network on which every endpoint fails. -/
def netNone : Network :=
  ⟨FetchResult.netErr, FetchResult.netErr, false, FetchResult.netErr, false, FetchResult.netErr,
   fun _ => none⟩

/-- A network on which the Gemini key-validation call succeeds and everything
else fails. -/
def netModelsOk : Network :=
  ⟨FetchResult.netErr, FetchResult.netErr, true, FetchResult.netErr, false, FetchResult.netErr,
   fun _ => none⟩

/-- Input of 8001 spaces: non-empty, whitespace-only, above every size threshold. -/
def bigSpaces : String := String.mk (List.replicate 8001 ' ')

/-- Input of 8001 letters: above the OpenAI size threshold. -/
def bigXs : String := String.mk (List.replicate 8001 'x')

/-- Input of 3001 letters: above the Gemini large-diff threshold. -/
def bigXs3001 : String := String.mk (List.replicate 3001 'x')

/-- A provider response whose JSON block carries `confidence: 5`. -/
def respConfidence5 : String := "\x7b\"type\":\"feat\",\"message\":\"ok\",\"confidence\":5\x7d"

/-- Source: `JSON.parse` modelled on exactly the JSON block of `respConfidence5`:
an object with `type: "feat"`, `message: "ok"`, `confidence: 5`. -/
def jsonParse5 : List Char → Option ParsedJson :=
  fun l => if l = respConfidence5.data then some ⟨some "feat", none, some "ok", some 5⟩ else none

/-! # Theorems -/

/-! ## Shared helper lemmas -/

theorem parseFallback_confidence (r : String) : (parseFallback r).confidence = 0.7 := by
  unfold parseFallback
  rcases matchConventional r.data with _ | ⟨t, sc, m⟩ <;> rfl

theorem withRulesFallback_snd (d : String) (r : GenResult) :
    (withRulesFallback d r).2 = r.2 := by
  rcases r with ⟨res, reqs⟩
  cases res <;> rfl

theorem withRulesFallback_ok (d : String) (r : GenResult) :
    ∃ c, (withRulesFallback d r).1 = Except.ok c := by
  rcases r with ⟨res, reqs⟩
  cases res with
  | error e => exact ⟨generateWithEnhancedRules d, rfl⟩
  | ok c => exact ⟨c, rfl⟩

theorem determineCommitType_fst_mem (fp : List String) (ca : ContentAnalysis)
    (cs : ChangeStats) : (determineCommitType fp ca cs).1 ∈ commitTypeKeywords := by
  unfold determineCommitType
  dsimp only
  repeat (any_goals split)
  all_goals decide

/-! ## C3: the rule-based path caps confidence at 0.9 and yields a known type -/

/-- C3: for every input diff text, `generateWithEnhancedRules` returns content
whose confidence is at most 0.9 and whose type is one of the eleven known
commit types. -/
theorem spec_C3 (d : String) :
    (generateWithEnhancedRules d).confidence ≤ 0.9 ∧
    (generateWithEnhancedRules d).type ∈ commitTypeKeywords := by
  constructor
  · show min _ 0.9 ≤ 0.9
    exact min_le_right _ _
  · exact determineCommitType_fst_mem _ _ _

/-! ## C4: classification precedence -/

/-- C4: `determineCommitType` agrees everywhere with the specification's
eleven-rule precedence listing (first match wins), and on the two concrete
scenarios: a lone `README.md` with only the docs flag yields `(docs, 0.9)`
for any change statistics, and additions 120 / deletions 10 with only the
new-feature flag yields `(feat, 0.85)` for any file list. -/
theorem spec_C4 :
    (∀ fp ca cs, determineCommitType fp ca cs = claimedCommitTypePrecedence fp ca cs) ∧
    (∀ cs, determineCommitType ["README.md"] ⟨false, false, false, false, true, false, false⟩ cs
      = ("docs", 0.9)) ∧
    (∀ fp, determineCommitType fp ⟨true, false, false, false, false, false, false⟩ ⟨120, 10, 5⟩
      = ("feat", 0.85)) := by
  refine ⟨?_, ?_, ?_⟩
  · intro fp ca cs
    unfold determineCommitType claimedCommitTypePrecedence
    cases hb : decide (cs.deletions * 2 < cs.additions) <;>
      cases hf : ca.hasNewFeature <;> simp [hb, hf]
  · intro cs
    have h1 : (["README.md"].any hasTestFilePath) = false := by decide
    have h2 : (["README.md"].any hasDocFilePath) = true := by decide
    simp [determineCommitType, h1, h2]
  · intro fp
    simp [determineCommitType]

/-! ## C5: scope derivation on `src/auth` paths -/

/-- C5 counterexample: on `["src/auth/login.ts", "src/auth/token.ts"]` the
code's `extractScope` returns the empty scope, not `"auth"`. -/
theorem spec_C5_counterexample :
    extractScope ["src/auth/login.ts", "src/auth/token.ts"] = "" ∧
    extractScope ["src/auth/login.ts", "src/auth/token.ts"] ≠ "auth" := by
  constructor
  · decide
  · decide

/-- C5 amended: `extractScope` drops the leading `src` segment entirely (it
takes only the first path segment and filters `src` out), so the example paths
yield no scope; paths whose first segment is `auth` do yield `auth`. -/
theorem spec_C5_amended :
    extractScope ["src/auth/login.ts", "src/auth/token.ts"] = "" ∧
    extractScope ["auth/login.ts", "auth/token.ts"] = "auth" := by
  constructor
  · decide
  · decide

/-! ## C8: confidence of provider-parsed responses -/

/-- C8 counterexample: a provider response whose JSON block says
`confidence: 5` is passed through unclamped, so the parsed confidence lies
outside `[0, 1]`. -/
theorem spec_C8_counterexample :
    (parseAIResponse jsonParse5 respConfidence5).confidence = 5 ∧
    ¬((parseAIResponse jsonParse5 respConfidence5).confidence ≤ 1) := by
  constructor
  · decide
  · decide

/-- C8 amended: `parseAIResponse` yields confidence 0.7 on the
conventional-commit and first-line branches, and on the JSON branch either the
default 0.8 or the provider's `confidence` value passed through `jsOrQ`
unclamped (which can lie outside `[0, 1]`). -/
theorem spec_C8_amended (jp : List Char → Option ParsedJson) (r : String) :
    (parseAIResponse jp r).confidence = 0.7 ∨ (parseAIResponse jp r).confidence = 0.8 ∨
    ∃ jl p, extractJsonBlock r.data = some jl ∧ jp jl = some p ∧
      (parseAIResponse jp r).confidence = jsOrQ p.confidence 0.8 := by
  rcases hE : extractJsonBlock r.data with _ | jl
  · have h : parseAIResponse jp r = parseFallback r := by
      unfold parseAIResponse
      simp only [hE]
    rw [h]
    exact Or.inl (parseFallback_confidence r)
  · rcases hp : jp jl with _ | p
    · have h : parseAIResponse jp r = parseFallback r := by
        unfold parseAIResponse
        simp only [hE, hp]
      rw [h]
      exact Or.inl (parseFallback_confidence r)
    · refine Or.inr (Or.inr ⟨jl, p, rfl, hp, ?_⟩)
      unfold parseAIResponse
      simp only [hE, hp]

/-! ## Gateway plumbing lemmas -/

theorem beq_empty_false_of_ne {s : String} (h : s ≠ "") : (s == "") = false := by
  simp [h]

theorem generateCommitContent_ws (cfg : AIConfig) (net : Network) (d : String)
    (h : jsTrim d = "") : generateCommitContent cfg net d = (Except.error NO_STAGED_FILES, []) := by
  unfold generateCommitContent
  simp [h]

theorem generateCommitContent_large (cfg : AIConfig) (net : Network) (d : String)
    (h : jsTrim d ≠ "")
    (hL : (isLargeDiffForProvider cfg d && !(cfg.provider == Provider.gemini)) = true) :
    generateCommitContent cfg net d = (Except.ok (generateWithEnhancedRules d), []) := by
  unfold generateCommitContent
  simp [beq_empty_false_of_ne h, hL]

theorem generateCommitContent_dispatch (cfg : AIConfig) (net : Network) (d : String)
    (h : jsTrim d ≠ "")
    (hL : (isLargeDiffForProvider cfg d && !(cfg.provider == Provider.gemini)) = false) :
    generateCommitContent cfg net d = withRulesFallback d (dispatchProvider cfg net d) := by
  unfold generateCommitContent
  simp [beq_empty_false_of_ne h, hL]

/-! ## Replicate-string evaluation lemmas -/

theorem dropWhile_space_replicate (n : Nat) :
    List.dropWhile isJsSpace (List.replicate n ' ') = [] := by
  induction n with
  | zero => rfl
  | succ m ih =>
    rw [List.replicate_succ, List.dropWhile_cons_of_pos (by decide)]
    exact ih

theorem trimChars_replicate_space (n : Nat) : trimChars (List.replicate n ' ') = [] := by
  unfold trimChars
  rw [dropWhile_space_replicate]
  rfl

theorem jsTrim_bigSpaces : jsTrim bigSpaces = "" := by
  show String.mk (trimChars (List.replicate 8001 ' ')) = ""
  rw [trimChars_replicate_space]

theorem dropWhile_space_replicate_x (n : Nat) :
    List.dropWhile isJsSpace (List.replicate n 'x') = List.replicate n 'x' := by
  cases n with
  | zero => rfl
  | succ m =>
    rw [List.replicate_succ, List.dropWhile_cons_of_neg (by decide)]

theorem trimChars_replicate_x (n : Nat) :
    trimChars (List.replicate n 'x') = List.replicate n 'x' := by
  unfold trimChars
  rw [dropWhile_space_replicate_x, List.reverse_replicate, dropWhile_space_replicate_x,
    List.reverse_replicate]

theorem mk_replicate_x_ne_empty (n : Nat) (h : n ≠ 0) :
    String.mk (List.replicate n 'x') ≠ "" := by
  intro he
  have hd : List.replicate n 'x' = ([] : List Char) := congrArg String.data he
  rw [List.replicate_eq_nil_iff] at hd
  exact h hd

theorem jsTrim_replicate_x (n : Nat) :
    jsTrim (String.mk (List.replicate n 'x')) = String.mk (List.replicate n 'x') := by
  show String.mk (trimChars (List.replicate n 'x')) = _
  rw [trimChars_replicate_x]

theorem length_mk_replicate (n : Nat) (c : Char) :
    (String.mk (List.replicate n c)).length = n := by
  show (List.replicate n c).length = n
  simp

/-! ## C2: empty and whitespace-only diffs -/

/-- C2: for every configuration and network, an empty or whitespace-only diff
text makes `generateCommitContent` signal the no-staged-files error with no
network request issued. -/
theorem spec_C2 (cfg : AIConfig) (net : Network) (d : String) (h : jsTrim d = "") :
    generateCommitContent cfg net d = (Except.error NO_STAGED_FILES, []) :=
  generateCommitContent_ws cfg net d h

/-- C2 witness at the whitespace diff `" "`. -/
theorem spec_C2_witness :
    jsTrim " " = "" ∧
    generateCommitContent cfgRules netNone " " = (Except.error NO_STAGED_FILES, []) :=
  ⟨by decide, spec_C2 cfgRules netNone " " (by decide)⟩

/-! ## C1: totality of the gateway -/

/-- C1 counterexample: on the empty diff text the gateway does raise
(`Except.error` with the no-staged-files message), so it is not total on every
input. -/
theorem spec_C1_counterexample :
    (generateCommitContent cfgRules netNone "").1 = Except.error NO_STAGED_FILES ∧
    (generateCommitContent cfgRules netNone "").1.isOk = false := by
  have hg := generateCommitContent_ws cfgRules netNone "" (by decide)
  constructor
  · rw [hg]
  · rw [hg]
    rfl

/-- C1 amended: for every diff text that is not whitespace-only,
`generateCommitContent` always resolves to an `AICommitContent` for every
configuration and network behaviour; and whenever the selected provider call
errors (and the large-diff skip did not apply), the result is exactly the
rule-based fallback with the already-issued requests. -/
theorem spec_C1_amended (cfg : AIConfig) (net : Network) (d : String) (h : jsTrim d ≠ "") :
    (∃ c, (generateCommitContent cfg net d).1 = Except.ok c) ∧
    (∀ msg reqs,
      (isLargeDiffForProvider cfg d && !(cfg.provider == Provider.gemini)) = false →
      dispatchProvider cfg net d = (Except.error msg, reqs) →
      generateCommitContent cfg net d = (Except.ok (generateWithEnhancedRules d), reqs)) := by
  by_cases hL : (isLargeDiffForProvider cfg d && !(cfg.provider == Provider.gemini)) = true
  · constructor
    · exact ⟨generateWithEnhancedRules d, by rw [generateCommitContent_large cfg net d h hL]⟩
    · intro msg reqs hfalse _
      rw [hfalse] at hL
      cases hL
  · have hL' : (isLargeDiffForProvider cfg d && !(cfg.provider == Provider.gemini)) = false :=
      Bool.eq_false_iff.mpr hL
    have hg := generateCommitContent_dispatch cfg net d h hL'
    constructor
    · rw [hg]
      exact withRulesFallback_ok d _
    · intro msg reqs _ hdisp
      rw [hg, hdisp]
      rfl

/-- C1 witness at the diff `"x"`. -/
theorem spec_C1_witness :
    jsTrim "x" ≠ "" ∧ (∃ c, (generateCommitContent cfgRules netNone "x").1 = Except.ok c) :=
  ⟨by decide, (spec_C1_amended cfgRules netNone "x" (by decide)).1⟩

/-! ## C6: the large-diff skip for non-Gemini providers -/

/-- C6 counterexample: 8001 spaces form a non-empty diff above the OpenAI
threshold, yet the gateway signals the no-staged-files error instead of
returning the rule-based result, because the emptiness check fires first. -/
theorem spec_C6_counterexample :
    bigSpaces ≠ "" ∧ MAX_DIFF_LENGTH < bigSpaces.length ∧
    (generateCommitContent cfgOpenai netNone bigSpaces).1 = Except.error NO_STAGED_FILES ∧
    ∀ c, (generateCommitContent cfgOpenai netNone bigSpaces).1 ≠ Except.ok c := by
  have hg := generateCommitContent_ws cfgOpenai netNone bigSpaces jsTrim_bigSpaces
  refine ⟨?_, ?_, ?_, ?_⟩
  · intro he
    have hd : List.replicate 8001 ' ' = ([] : List Char) := congrArg String.data he
    rw [List.replicate_eq_nil_iff] at hd
    omega
  · rw [show bigSpaces = String.mk (List.replicate 8001 ' ') from rfl, length_mk_replicate]
    norm_num [MAX_DIFF_LENGTH]
  · rw [hg]
  · intro c
    rw [hg]
    simp

/-- C6 amended: for every diff text that is not whitespace-only, above the
provider's threshold (8000 characters for OpenAI and Anthropic, 1.5 times that
for the local provider), the gateway issues no request and returns the
rule-based result. -/
theorem spec_C6_amended (cfg : AIConfig) (net : Network) (d : String) (h : jsTrim d ≠ "")
    (hbig : ((cfg.provider = Provider.openai ∨ cfg.provider = Provider.anthropic) ∧
        MAX_DIFF_LENGTH < d.length) ∨
      (cfg.provider = Provider.localAI ∧ MAX_DIFF_LENGTH * 3 / 2 < d.length)) :
    generateCommitContent cfg net d = (Except.ok (generateWithEnhancedRules d), []) := by
  apply generateCommitContent_large cfg net d h
  rcases hbig with ⟨hp | hp, hlen⟩ | ⟨hp, hlen⟩ <;>
    simp [isLargeDiffForProvider, hp, hlen]

/-- C6 witness: 8001 letters with the OpenAI provider. -/
theorem spec_C6_witness :
    jsTrim bigXs ≠ "" ∧ MAX_DIFF_LENGTH < bigXs.length ∧
    generateCommitContent cfgOpenai netNone bigXs =
      (Except.ok (generateWithEnhancedRules bigXs), []) := by
  have h1 : jsTrim bigXs ≠ "" := by
    rw [show bigXs = String.mk (List.replicate 8001 'x') from rfl, jsTrim_replicate_x]
    exact mk_replicate_x_ne_empty 8001 (by norm_num)
  have h2 : MAX_DIFF_LENGTH < bigXs.length := by
    rw [show bigXs = String.mk (List.replicate 8001 'x') from rfl, length_mk_replicate]
    norm_num [MAX_DIFF_LENGTH]
  exact ⟨h1, h2, spec_C6_amended cfgOpenai netNone bigXs h1 (Or.inl ⟨Or.inl rfl, h2⟩)⟩

/-! ## C7: the Gemini condensation path -/

theorem splitNl_cons (c : Char) (l : List Char) :
    splitNl (c :: l) =
      (if (c == '\n') = true then [] :: splitNl l
       else
         match splitNl l with
         | [] => [[c]]
         | a :: as => (c :: a) :: as) := rfl

theorem splitNl_replicate_x (n : Nat) :
    splitNl (List.replicate n 'x') = [List.replicate n 'x'] := by
  induction n with
  | zero => rfl
  | succ m ih =>
    rw [List.replicate_succ, splitNl_cons, ih]
    rfl

theorem containsSeq_replicate_x (p : Char) (ps : List Char) (hne : (p == 'x') = false) :
    ∀ n, containsSeq (List.replicate n 'x') (p :: ps) = false := by
  intro n
  induction n with
  | zero => rfl
  | succ m ih =>
    rw [List.replicate_succ]
    show (List.isPrefixOf (p :: ps) ('x' :: List.replicate m 'x') ||
      containsSeq (List.replicate m 'x') (p :: ps)) = false
    rw [ih, Bool.or_false]
    show ((p == 'x') && List.isPrefixOf ps (List.replicate m 'x')) = false
    rw [hne, Bool.false_and]

theorem head?_replicate_3001 : (List.replicate 3001 'x').head? = some 'x' := by
  rw [show (3001 : Nat) = 3000 + 1 by norm_num, List.replicate_succ]
  rfl

/-- On a diff of 3001 letters with no line structure, the condensed summary is
empty. -/
theorem truncate_bigXs3001 : truncateDiffForGemini bigXs3001 = "" := by
  have hlen : bigXs3001.length = 3001 := by
    rw [show bigXs3001 = String.mk (List.replicate 3001 'x') from rfl, length_mk_replicate]
  have hdata : bigXs3001.data = List.replicate 3001 'x' := rfl
  have c1 : containsSeq (List.replicate 3001 'x') "檔案:".data = false :=
    containsSeq_replicate_x '檔' "案:".data (by decide) 3001
  have c2 : containsSeq (List.replicate 3001 'x') "新增:".data = false :=
    containsSeq_replicate_x '新' "增:".data (by decide) 3001
  have c3 : containsSeq (List.replicate 3001 'x') "刪除:".data = false :=
    containsSeq_replicate_x '刪' "除:".data (by decide) 3001
  have c4 : containsSeq (List.replicate 3001 'x') "require(".data = false :=
    containsSeq_replicate_x 'r' "equire(".data (by decide) 3001
  have c5 : containsSeq (List.replicate 3001 'x') "import ".data = false :=
    containsSeq_replicate_x 'i' "mport ".data (by decide) 3001
  have c6 : containsSeq (List.replicate 3001 'x') "from ".data = false :=
    containsSeq_replicate_x 'f' "rom ".data (by decide) 3001
  have cT : trimChars (List.replicate 3001 'x') = List.replicate 3001 'x' :=
    trimChars_replicate_x 3001
  unfold truncateDiffForGemini
  rw [hlen, hdata, if_neg (by norm_num [GEMINI_SUMMARY_LENGTH]), splitNl_replicate_x]
  have e1 : (some 'x' == some '+') = false := rfl
  have e2 : (some 'x' == some '-') = false := rfl
  simp only [List.filter_cons, List.filter_nil, c1, c2, c3, c4, c5, c6, cT,
    head?_replicate_3001, e1, e2, Bool.or_self, Bool.false_and, Bool.and_false, Bool.false_or,
    Bool.or_false, Bool.false_eq_true, if_false]
  decide

theorem generateWithGemini_ceiling (cfg : AIConfig) (net : Network) (d : String)
    (hk : truthy cfg.apiKey = true) (hlen : GEMINI_MAX_DIFF_LENGTH < d.length)
    (hceil : GEMINI_SUMMARY_LENGTH * 3 / 2 < (truncateDiffForGemini d).length) :
    generateWithGemini cfg net d = (Except.ok (generateWithEnhancedRules d), []) := by
  unfold generateWithGemini
  simp [hk, hlen, hceil]

theorem generateWithGemini_snd (cfg : AIConfig) (net : Network) (d : String)
    (hk : truthy cfg.apiKey = true) (hlen : GEMINI_MAX_DIFF_LENGTH < d.length)
    (hceil : ¬ GEMINI_SUMMARY_LENGTH * 3 / 2 < (truncateDiffForGemini d).length)
    (hok : net.geminiModelsOk = true) :
    (generateWithGemini cfg net d).2 =
      [Request.geminiListModels,
       Request.geminiGenerate (createGeminiPrompt cfg (truncateDiffForGemini d))] := by
  have hc : decide (GEMINI_SUMMARY_LENGTH * 3 / 2 < (truncateDiffForGemini d).length) = false :=
    decide_eq_false hceil
  unfold generateWithGemini
  simp only [hk, hlen, hok, hc, Bool.not_true, Bool.false_eq_true, if_false, if_true,
    decide_True, Bool.true_and, Bool.and_false, eq_self_iff_true]
  cases net.geminiResult <;> (repeat' split) <;> rfl

/-- C7: on the Gemini path with a configured key and a diff above the 3000
character threshold, either the condensed summary exceeds the hard ceiling of
1200 characters (1.5 times the 800-character target) and the rule-based result
is returned with no request issued, or the condensed text — of length at most
1200 — is what is sent in the generation request in place of the raw diff. -/
theorem spec_C7 (cfg : AIConfig) (net : Network) (d : String)
    (hp : cfg.provider = Provider.gemini) (hk : truthy cfg.apiKey = true)
    (h : jsTrim d ≠ "") (hlen : GEMINI_MAX_DIFF_LENGTH < d.length) :
    (GEMINI_SUMMARY_LENGTH * 3 / 2 < (truncateDiffForGemini d).length →
      generateCommitContent cfg net d = (Except.ok (generateWithEnhancedRules d), [])) ∧
    ((truncateDiffForGemini d).length ≤ GEMINI_SUMMARY_LENGTH * 3 / 2 →
      net.geminiModelsOk = true →
      (generateCommitContent cfg net d).2 =
        [Request.geminiListModels,
         Request.geminiGenerate (createGeminiPrompt cfg (truncateDiffForGemini d))]) := by
  have hL : (isLargeDiffForProvider cfg d && !(cfg.provider == Provider.gemini)) = false := by
    simp [hp]
  have hg := generateCommitContent_dispatch cfg net d h hL
  have hdisp : dispatchProvider cfg net d = generateWithGemini cfg net d := by
    unfold dispatchProvider
    rw [hp]
  constructor
  · intro hceil
    rw [hg, hdisp, generateWithGemini_ceiling cfg net d hk hlen hceil]
    rfl
  · intro hceil hok
    rw [hg, withRulesFallback_snd, hdisp]
    exact generateWithGemini_snd cfg net d hk hlen (by omega) hok

/-- C7 witness: 3001 letters condense to the empty summary, which stays under
the ceiling and is sent in the Gemini generation request. -/
theorem spec_C7_witness :
    (truncateDiffForGemini bigXs3001).length ≤ GEMINI_SUMMARY_LENGTH * 3 / 2 ∧
    GEMINI_MAX_DIFF_LENGTH < bigXs3001.length ∧
    (generateCommitContent cfgGemini netModelsOk bigXs3001).2 =
      [Request.geminiListModels,
       Request.geminiGenerate (createGeminiPrompt cfgGemini (truncateDiffForGemini bigXs3001))] := by
  have h1 : (truncateDiffForGemini bigXs3001).length ≤ GEMINI_SUMMARY_LENGTH * 3 / 2 := by
    rw [truncate_bigXs3001]
    norm_num [GEMINI_SUMMARY_LENGTH]
  have h2 : GEMINI_MAX_DIFF_LENGTH < bigXs3001.length := by
    rw [show bigXs3001 = String.mk (List.replicate 3001 'x') from rfl, length_mk_replicate]
    norm_num [GEMINI_MAX_DIFF_LENGTH]
  have h3 : jsTrim bigXs3001 ≠ "" := by
    rw [show bigXs3001 = String.mk (List.replicate 3001 'x') from rfl, jsTrim_replicate_x]
    exact mk_replicate_x_ne_empty 3001 (by norm_num)
  exact ⟨h1, h2, (spec_C7 cfgGemini netModelsOk bigXs3001 rfl rfl h3 h2).2 h1 rfl⟩

/-! ## C9: sanitization of paths and commit messages -/

theorem removeDotDotSlash_all (p : Char → Bool) :
    ∀ l, l.all p = true → (removeDotDotSlash l).all p = true := by
  intro l
  induction l using removeDotDotSlash.induct with
  | case1 rest ih =>
    intro h
    rw [show removeDotDotSlash ('.' :: '.' :: '/' :: rest) = removeDotDotSlash rest from rfl]
    refine ih ?_
    simp only [List.all_cons, Bool.and_eq_true] at h
    exact h.2.2.2
  | case2 c rest hne ih =>
    intro h
    rw [removeDotDotSlash.eq_2 c rest hne]
    simp only [List.all_cons, Bool.and_eq_true] at h ⊢
    exact ⟨h.1, ih h.2⟩
  | case3 =>
    intro _
    rfl

theorem all_trimChars (p : Char → Bool) (l : List Char) (h : l.all p = true) :
    (trimChars l).all p = true := by
  rw [List.all_eq_true] at h ⊢
  intro c hc
  apply h
  unfold trimChars at hc
  have hc1 := List.mem_reverse.mp hc
  have hc2 : c ∈ (l.dropWhile isJsSpace).reverse := (List.dropWhile_sublist _).subset hc1
  have hc3 := List.mem_reverse.mp hc2
  exact (List.dropWhile_sublist _).subset hc3

theorem sanitizeFilePath_no_meta (s : String) :
    (sanitizeFilePath s).data.all (fun c => !(isShellMeta c)) = true := by
  show (trimChars (removeDotDotSlash (s.data.filter fun c => !(isShellMeta c)))).all _ = true
  apply all_trimChars
  apply removeDotDotSlash_all
  rw [List.all_eq_true]
  intro c hc
  exact (List.mem_filter.mp hc).2

theorem quoteOk_escapeQuotes (l : List Char) : ∀ q, quoteOk q (escapeQuotes l) = true := by
  induction l with
  | nil => intro q; rfl
  | cons c rest ih =>
    intro q
    have g1 : ('\\' == dquoteChar) = false := rfl
    have g2 : (dquoteChar == dquoteChar) = true := rfl
    have g3 : ((some '\\' : Option Char) == some '\\') = true := rfl
    cases hc : (c == dquoteChar) with
    | true => simp [escapeQuotes, hc, quoteOk, ih, g1, g2, g3]
    | false => simp [escapeQuotes, hc, quoteOk, ih, g1, g2, g3]

theorem escapedOk_prev_irrel (l : List Char) (q q' : Option Char)
    (hq : (q == some '\\') = (q' == some '\\')) : escapedOk q l = escapedOk q' l := by
  cases l with
  | nil => rfl
  | cons c rest =>
    show ((if c == dquoteChar || c == backquoteChar || c == dollarChar then q == some '\\'
        else true) && escapedOk (some c) rest) =
      ((if c == dquoteChar || c == backquoteChar || c == dollarChar then q' == some '\\'
        else true) && escapedOk (some c) rest)
    rw [hq]

theorem escapedOk_escapeSpecials (l : List Char) :
    ∀ q, quoteOk q l = true → escapedOk q (escapeSpecials l) = true := by
  induction l with
  | nil => intro q _; rfl
  | cons c rest ih =>
    intro q hq
    have hq' : ((if c == dquoteChar then q == some '\\' else true) &&
        quoteOk (some c) rest) = true := hq
    rw [Bool.and_eq_true] at hq'
    obtain ⟨hq1, hq2⟩ := hq'
    cases hEsc : isEscTarget c with
    | true =>
      have he : escapeSpecials (c :: rest) = '\\' :: c :: escapeSpecials rest := by
        simp [escapeSpecials, hEsc]
      rw [he]
      have g1 : ('\\' == dquoteChar || '\\' == backquoteChar || '\\' == dollarChar) = false := rfl
      have g2 : ((some '\\' : Option Char) == some '\\') = true := rfl
      simp [escapedOk, ih (some c) hq2, g1, g2]
    | false =>
      have he : escapeSpecials (c :: rest) = c :: escapeSpecials rest := by
        simp [escapeSpecials, hEsc]
      rw [he]
      have hb : (c == backquoteChar) = false ∧ (c == dollarChar) = false := by
        have h2 : (c == backquoteChar || c == dollarChar || c == '\\') = false := hEsc
        constructor
        · cases h : (c == backquoteChar) with
          | true => rw [h] at h2; simp at h2
          | false => rfl
        · cases h : (c == dollarChar) with
          | true => rw [h] at h2; simp at h2
          | false => rfl
      show ((if c == dquoteChar || c == backquoteChar || c == dollarChar then q == some '\\'
          else true) && escapedOk (some c) (escapeSpecials rest)) = true
      rw [ih (some c) hq2, Bool.and_true, hb.1, hb.2, Bool.or_false, Bool.or_false]
      cases hd : (c == dquoteChar) with
      | true =>
        rw [if_pos rfl]
        rw [hd] at hq1
        simpa using hq1
      | false => simp

theorem escapedOk_dropWhile (l : List Char) (h : escapedOk none l = true) :
    escapedOk none (l.dropWhile isJsSpace) = true := by
  induction l with
  | nil => exact h
  | cons c rest ih =>
    cases hs : isJsSpace c with
    | false =>
      rw [List.dropWhile_cons_of_neg (by simp [hs])]
      exact h
    | true =>
      rw [List.dropWhile_cons_of_pos (by simp [hs])]
      have h' : ((if c == dquoteChar || c == backquoteChar || c == dollarChar
          then (none : Option Char) == some '\\' else true) && escapedOk (some c) rest) = true := h
      rw [Bool.and_eq_true] at h'
      have h2 := h'.2
      have hcb : (c == '\\') = false := by
        cases hcc : (c == '\\') with
        | true =>
          rw [eq_of_beq hcc] at hs
          cases hs
        | false => rfl
      apply ih
      rw [escapedOk_prev_irrel rest none (some c) ?_]
      · exact h2
      · show (false : Bool) = (some c == some '\\')
        show (false : Bool) = (c == '\\')
        rw [hcb]

theorem escapedOk_append_left (a b : List Char) (q : Option Char)
    (h : escapedOk q (a ++ b) = true) : escapedOk q a = true := by
  induction a generalizing q with
  | nil => rfl
  | cons c rest ih =>
    have h' : ((if c == dquoteChar || c == backquoteChar || c == dollarChar then q == some '\\'
        else true) && escapedOk (some c) (rest ++ b)) = true := h
    rw [Bool.and_eq_true] at h'
    show ((if c == dquoteChar || c == backquoteChar || c == dollarChar then q == some '\\'
        else true) && escapedOk (some c) rest) = true
    rw [Bool.and_eq_true]
    exact ⟨h'.1, ih (some c) h'.2⟩

theorem trimChars_escapedOk (l : List Char) (h : escapedOk none l = true) :
    escapedOk none (trimChars l) = true := by
  unfold trimChars
  have h1 : escapedOk none (l.dropWhile isJsSpace) = true := escapedOk_dropWhile l h
  generalize hD : l.dropWhile isJsSpace = D at h1 ⊢
  have hp : (D.reverse.dropWhile isJsSpace).reverse <+: D.reverse.reverse :=
    Iff.mpr List.reverse_prefix (List.dropWhile_suffix _)
  rw [List.reverse_reverse] at hp
  rcases hp with ⟨t, ht⟩
  exact escapedOk_append_left _ t none (by rw [ht]; exact h1)

theorem sanitizeCommitMessage_escaped (m : String) :
    escapedOk none (sanitizeCommitMessage m).data = true := by
  show escapedOk none (trimChars (escapeSpecials (escapeQuotes m.data))) = true
  exact trimChars_escapedOk _ (escapedOk_escapeSpecials _ none (quoteOk_escapeQuotes m.data none))

/-- C9 counterexample: the single-pass `../` removal can reconstruct a
traversal sequence (`"....//"` sanitizes to `"../"`), and a double quote in a
commit message ends up preceded by two backslashes (its own escape gets
escaped again), so the claim as stated fails. -/
theorem spec_C9_counterexample :
    sanitizeFilePath "....//" = "../" ∧
    strContains (sanitizeFilePath "....//") "../" = true ∧
    sanitizeCommitMessage (String.mk [dquoteChar]) = String.mk ['\\', '\\', dquoteChar] := by
  refine ⟨by decide, by decide, by decide⟩

/-- C9 amended: every sanitized file path is free of the shell metacharacters
(though a `../` can survive the single-pass removal), and in every sanitized
commit message each double quote, backtick and dollar sign is immediately
preceded by a backslash character (for a double quote that backslash is itself
an inserted escape, so the quote carries two backslashes). -/
theorem spec_C9_amended :
    (∀ s : String, (sanitizeFilePath s).data.all (fun c => !(isShellMeta c)) = true) ∧
    (∀ m : String, escapedOk none (sanitizeCommitMessage m).data = true) :=
  ⟨sanitizeFilePath_no_meta, sanitizeCommitMessage_escaped⟩

/-! ## C10: at most one status entry per (path, category) -/

theorem getStatusInfo_fst_ne_untracked (c : Char) : ((getStatusInfo c).1 == "?") = false := by
  unfold getStatusInfo
  split_ifs <;> rfl

theorem goodMap_mapSet {m : FileMap} (hm : goodMap m) (k : List Char) (v : GitFileStatus)
    (hkv : k = keyFor v) : goodMap (mapSet m k v) := by
  obtain ⟨hnd, hW⟩ := hm
  by_cases hAny : (m.any fun p => p.1 == k) = true
  · rw [mapSet, if_pos hAny]
    have hg : ∀ p : List Char × GitFileStatus, (if p.1 == k then (k, v) else p).1 = p.1 := by
      intro p
      split
      · next hpk => exact (eq_of_beq hpk).symm
      · rfl
    constructor
    · rw [List.pairwise_map]
      refine hnd.imp ?_
      intro a b hab
      rw [hg a, hg b]
      exact hab
    · intro kv hkv'
      rw [List.mem_map] at hkv'
      obtain ⟨p, hpm, hpe⟩ := hkv'
      by_cases hpk : (p.1 == k) = true
      · rw [if_pos hpk] at hpe
        rw [← hpe]
        exact hkv
      · rw [if_neg hpk] at hpe
        rw [← hpe]
        exact hW p hpm
  · rw [mapSet, if_neg hAny]
    constructor
    · rw [List.pairwise_append]
      refine ⟨hnd, List.pairwise_singleton _ _, ?_⟩
      intro a ham b hbm
      rw [List.mem_singleton] at hbm
      subst hbm
      intro hak
      apply hAny
      rw [List.any_eq_true]
      exact ⟨a, ham, beq_iff_eq.mpr hak⟩
    · intro kv hkv'
      rw [List.mem_append] at hkv'
      rcases hkv' with hin | hin
      · exact hW kv hin
      · rw [List.mem_singleton] at hin
        subst hin
        exact hkv

theorem goodMap_cond_mapSet (b : Bool) (m : FileMap) (k : List Char) (v : GitFileStatus)
    (hm : goodMap m) (hkv : k = keyFor v) :
    goodMap (if b = true then mapSet m k v else m) := by
  split
  · exact goodMap_mapSet hm k v hkv
  · exact hm

theorem keyFor_unstaged (path : List Char) (w : Char) :
    path ++ sufUnstaged =
      keyFor ⟨String.mk path, (getStatusInfo w).1, (getStatusInfo w).2, false⟩ := by
  unfold keyFor catOf
  simp [getStatusInfo_fst_ne_untracked w, catSuffix]

theorem goodMap_processStatusLine (m : FileMap) (hm : goodMap m) (line : List Char) :
    goodMap (processStatusLine m line) := by
  match line with
  | [] => exact hm
  | [_] => exact hm
  | [_, _] => exact hm
  | i :: w :: x :: rest =>
    exact goodMap_cond_mapSet _ _ _ _
      (goodMap_cond_mapSet _ _ _ _
        (goodMap_cond_mapSet _ _ _ _ hm rfl)
        (keyFor_unstaged (parseStatusPath rest) w))
      rfl

theorem goodMap_foldl (lines : List (List Char)) :
    ∀ m, goodMap m → goodMap (lines.foldl processStatusLine m) := by
  induction lines with
  | nil => intro m hm; exact hm
  | cons l rest ih =>
    intro m hm
    exact ih _ (goodMap_processStatusLine m hm l)

theorem append_ne_of_rev_get (p q s1 s2 : List Char) (i : Nat)
    (h1 : i < s1.length) (h2 : i < s2.length) (hne : s1.reverse[i]? ≠ s2.reverse[i]?) :
    p ++ s1 ≠ q ++ s2 := by
  intro h
  apply hne
  have hrev := congrArg (fun l => l.reverse[i]?) h
  simp only [List.reverse_append] at hrev
  rwa [List.getElem?_append_left (by simpa using h1),
    List.getElem?_append_left (by simpa using h2)] at hrev

theorem catSuffix_append_inj (p q : List Char) (c1 c2 : FileCat)
    (h : p ++ catSuffix c1 = q ++ catSuffix c2) : c1 = c2 ∧ p = q := by
  cases c1 <;> cases c2
  case staged.staged => exact ⟨rfl, List.append_cancel_right h⟩
  case unstaged.unstaged => exact ⟨rfl, List.append_cancel_right h⟩
  case untracked.untracked => exact ⟨rfl, List.append_cancel_right h⟩
  case staged.unstaged =>
    exact absurd h (append_ne_of_rev_get p q _ _ 6 (by decide) (by decide) (by decide))
  case unstaged.staged =>
    exact absurd h (append_ne_of_rev_get p q _ _ 6 (by decide) (by decide) (by decide))
  case staged.untracked =>
    exact absurd h (append_ne_of_rev_get p q _ _ 2 (by decide) (by decide) (by decide))
  case untracked.staged =>
    exact absurd h (append_ne_of_rev_get p q _ _ 2 (by decide) (by decide) (by decide))
  case unstaged.untracked =>
    exact absurd h (append_ne_of_rev_get p q _ _ 2 (by decide) (by decide) (by decide))
  case untracked.unstaged =>
    exact absurd h (append_ne_of_rev_get p q _ _ 2 (by decide) (by decide) (by decide))

/-- C10: for every status output, the list returned by `getFileStatus`
contains at most one entry per (path, category) pair: no two distinct entries
share both their path and their category (staged / unstaged / untracked). -/
theorem spec_C10 (stdout : String) :
    (getFileStatus stdout).Pairwise
      (fun a b => ¬(a.path = b.path ∧ catOf a = catOf b)) := by
  unfold getFileStatus
  have hg : goodMap
      (((splitNl stdout.data).filter (fun l => !l.isEmpty)).foldl processStatusLine []) :=
    goodMap_foldl _ [] ⟨List.Pairwise.nil, by intro kv h; cases h⟩
  obtain ⟨hnd, hW⟩ := hg
  rw [List.pairwise_map]
  refine hnd.imp_of_mem ?_
  intro a b ha hb hne hcontra
  apply hne
  rw [hW a ha, hW b hb]
  unfold keyFor
  rw [hcontra.1, hcontra.2]

end YunCommit
